import Mathlib

/-!
Verification of the UAVLogViewer chatbot backend control machinery.

This file gives a shallow embedding of the Python code under
`src/chatbot_backend/` — the safety filter (`agent/utils.py`), the inner
query-repair state machine (`agent/QueryAgent.py`), the outer
plan-execute-replan state machine with its analysis cache and conversation
history (`agent/PlanExecuteAgent.py`), and the streaming chat endpoint
(`main.py`) — and proves or refutes the frozen specification claims about
them.

Modelling conventions:
- LangGraph compiled graphs are modelled as explicit step functions on a
  node tag plus a state record, driven by a superstep budget equal to the
  configured `recursion_limit` (exceeding the budget is the
  `GraphRecursionError`).
- External collaborators (the LLM via `model.invoke`, the `sqldf` query
  executor, the `sqlparse` tokenizer, pandas numeric kernels) are
  parameters of the model: the repository code only consumes their
  outputs.
- Python exceptions are modelled with `Except`: a node that raises yields
  `Except.error`, which aborts the graph stream exactly as in LangGraph.
- pandas floating point statistics are modelled over exact fractions
  (`Frac`, with `Option Frac` where pandas produces NaN); every concrete
  input used below evaluates exactly in IEEE double precision, so the
  fraction values coincide with the floats the code computes.
-/

namespace UAV

/-! ## Safety filter (`agent/utils.py`, `is_safe_query`)

`sqlparse.parse` is an external library; it hands the repository code a
list of statements, each a list of tokens carrying a token type and a
string value.  The code tests `token.ttype is sqlparse.tokens.Keyword`,
which we record as a boolean on the token, and compares the uppercased
value against a fixed set. -/

/-- A token as seen by `is_safe_query`: whether its `ttype` is exactly
`sqlparse.tokens.Keyword`, and its string value. -/
structure SqlToken where
  isKeyword : Bool
  value : String
  deriving DecidableEq

/-- The disallowed keyword set of `is_safe_query`. -/
def disallowedKeywords : List String :=
  ["DROP", "DELETE", "INSERT", "UPDATE", "PRAGMA"]

/-- Python `str.upper()` (character-wise uppercasing; the keywords
involved are ASCII). -/
def pyUpper (s : String) : String := ⟨s.data.map Char.toUpper⟩

/-- Model of `is_safe_query` from `agent/utils.py`, over the token lists produced by
the external `sqlparse.parse`: return `false` as soon as some statement
contains a keyword token whose uppercased value is disallowed, else
`true`. -/
def is_safe_query (parsed : List (List SqlToken)) : Bool :=
  parsed.all fun statement =>
    statement.all fun t =>
      !(t.isKeyword && disallowedKeywords.contains (pyUpper t.value))

/-! ## Query-repair loop (`agent/QueryAgent.py`)

State schema `QueryAgentState` and the four graph nodes `write_query`,
`execute_query`, `replan_query`, `analyze_result`.  The graph edges are:
entry `write_query`; `write_query → execute_query`; a conditional edge
from `execute_query` to `analyze_result` when `state["sql_result"]` is
truthy and to `replan_query` otherwise; `replan_query → execute_query`
unconditionally; `analyze_result` has no outgoing edge (END). -/

/-- The `QueryAgentState` TypedDict (the `documentation` field lives on the
agent object in the model; `attempts` entries are the generated query
texts). -/
structure QState where
  question : String
  sql_query : Option String := none
  sql_result : Option String := none
  sql_error : Option String := none
  attempts : List String := []
  final_answer : Option String := none
  deriving DecidableEq

/-- Node tags of the compiled query graph. -/
inductive QNode where
  | write_query
  | execute_query
  | replan_query
  | analyze_result
  deriving DecidableEq

/-- A Python exception escaping a graph node. -/
inductive PyFault where
  | keyError (key : String)
  | attributeError (name : String)
  | infra (msg : String)
  deriving DecidableEq

/-- External collaborators of the query agent: the two LLM generation
calls (structured `write_query` output and free-form `replan_query`
output), the result summariser, the `sqldf` executor (returning either the
serialized row records or the exception message), and the safety verdict
`is_safe_query ∘ sqlparse.parse` on raw query text. -/
structure QEnv where
  writeGen : QState → String
  repairGen : QState → String
  summarize : QState → String
  runQ : String → Except String String
  safe : String → Bool

/-- One node application of the query graph, returning the updated state
and the successor node (`none` when the graph reaches END), or the Python
exception the node raised.  Mirrors `QueryAgent` line by line; in
particular the unsafe branch of `execute_query` evaluates
`state['query']`, a key absent from `QueryAgentState`, raising
`KeyError('query')`. -/
def qApplyNode (env : QEnv) : QNode → QState → Except PyFault (QState × Option QNode)
  | .write_query, s =>
    let q := env.writeGen s
    .ok ({ s with sql_query := some q, attempts := s.attempts ++ [q] }, some .execute_query)
  | .execute_query, s =>
    if env.safe (s.sql_query.getD "") = false then
      .error (.keyError "query")
    else
      match env.runQ (s.sql_query.getD "") with
      | .ok r =>
        let s' := { s with sql_result := some r, sql_error := none }
        .ok (s', some (if r ≠ "" then .analyze_result else .replan_query))
      | .error e =>
        .ok ({ s with sql_result := none, sql_error := some e }, some .replan_query)
  | .replan_query, s =>
    if s.attempts.length ≥ 5 then
      .ok ({ s with final_answer := some "Failed after 5 attempts." }, some .execute_query)
    else
      let q := env.repairGen s
      .ok ({ s with sql_query := some q, attempts := s.attempts ++ [q] }, some .execute_query)
  | .analyze_result, s =>
    .ok ({ s with final_answer := some (env.summarize s) }, none)

/-- How a graph stream ends when no exception escapes: either the
recursion limit was exhausted with a node still pending
(`GraphRecursionError`), or the graph reached END, remembering the last
executed node (the key of the last dict yielded by `stream`). -/
inductive QEnd where
  | recursionError
  | finished (lastNode : QNode)
  deriving DecidableEq

/-- Drive the query graph: `budget` remaining supersteps (the configured
`recursion_limit`), current node, current state.  Returns the stream end
together with the last state, or the escaping exception. -/
def qDrive (env : QEnv) : Nat → QNode → QState → Except PyFault (QEnd × QState)
  | 0, _, s => .ok (.recursionError, s)
  | budget + 1, n, s =>
    match qApplyNode env n s with
    | .error f => .error f
    | .ok (s', none) => .ok (.finished n, s')
    | .ok (s', some n') => qDrive env budget n' s'

/-- Initial query-graph state built by `QueryAgent.call`. -/
def qInit (question : String) : QState :=
  { question := question, attempts := [] }

/-- Model of `QueryAgent.call`: stream the graph with `recursion_limit 5`; on
normal completion read `final_step['analyze_result']["final_answer"]`
(a `KeyError` when the last node is not `analyze_result`, swallowed by the
generic handler); turn `GraphRecursionError` into a fixed message and any
other exception into another fixed message. -/
def qCall (env : QEnv) (question : String) : String :=
  match qDrive env 5 .write_query (qInit question) with
  | .ok (.recursionError, _) => "I couldn't access the information"
  | .ok (.finished n, s) =>
    if n = .analyze_result then (s.final_answer.getD "")
    else "Something went wrong. Please try again."
  | .error _ => "Something went wrong. Please try again."

/-! ## Plan-execute-replan loop (`agent/PlanExecuteAgent.py`)

State schema `PlanExecuteState`; the channels `past_steps` and
`conversation_history` carry an `operator.add` reducer (node returns are
appended), while `plan` and `response` are overwritten.  Graph: entry
`get_plan_or_response`; a conditional edge to `agent` when
`state['plan']` is truthy and to `update_history` otherwise;
`agent → replan`; a conditional edge from `replan` to `update_history`
when `state["response"]` is truthy and back to `agent` otherwise;
`update_history → END`. -/

/-- A plan step: the `Query`/`Analysis` pydantic tagged union.  Pydantic
equality (used by `step not in completed_steps`) is structural equality on
the variant and its fields. -/
inductive PStep where
  | query (question : String)
  | analysis (table_name : String)
  deriving DecidableEq

/-- The `PlanExecuteState` TypedDict.  `past_steps` entries pair the
executed step (`none` for the empty-plan placeholder) with its result
text. -/
structure PState where
  input : String
  plan : List PStep := []
  past_steps : List (Option PStep × String) := []
  response : String := ""
  conversation_history : List (String × String) := []
  deriving DecidableEq

/-- Node tags of the compiled plan-execute graph. -/
inductive PNode where
  | get_plan_or_response
  | agent
  | replan
  | update_history
  deriving DecidableEq

/-- Structured output of the `get_plan_or_response` LLM call
(`TreatUserInput.action`): a plan or a direct response. -/
inductive TreatOut where
  | planOut (steps : List PStep)
  | directOut (response : String)
  deriving DecidableEq

/-- Structured output of the `replan` LLM call (`Act.action`): a final
response or a continuation plan. -/
inductive ActOut where
  | respOut (response : String)
  | planOut (steps : List PStep)
  deriving DecidableEq

/-- External collaborators of the plan-execute agent: the two structured
LLM calls (each may raise an infrastructure fault) and the step executor
(`query_agent.call` / `analyse_data`, both of which return plain strings).
`decide` is a single call per turn; `replanO` sees the current state. -/
structure PEnv where
  decideO : Except PyFault TreatOut
  stepExec : PStep → String
  replanO : PState → Except PyFault ActOut

/-- Model of `PlanExecuteAgent.update_conversation_history` on the history channel:
`pop(0)` mutates the channel list in place when it already holds 10 or
more turns, then the returned singleton update is appended by the
`operator.add` reducer. -/
def update_conversation_history (history : List (String × String))
    (input response : String) : List (String × String) :=
  let popped := if history.length ≥ 10 then history.drop 1 else history
  popped ++ [(input, response)]

/-- The duplicate filter of `PlanExecuteAgent.replan`: keep only the
steps of the proposed continuation plan that do not equal (`==`, i.e.
structural equality) any recorded past step.  `completed_steps` is the
list of first components of `past_steps`, including `None` placeholders,
which no real step ever equals. -/
def replanFilter (steps : List PStep) (past_steps : List (Option PStep × String)) : List PStep :=
  let completed := past_steps.map Prod.fst
  steps.filter fun st => decide (some st ∉ completed)

/-- One node application of the plan-execute graph.  Conditional edges
read the channel state after the node's update is applied, testing Python
truthiness (non-empty list / non-empty string). -/
def pApplyNode (env : PEnv) : PNode → PState → Except PyFault (PState × Option PNode)
  | .get_plan_or_response, s =>
    match env.decideO with
    | .error f => .error f
    | .ok (.planOut ps) =>
      let s' := { s with plan := ps }
      .ok (s', some (if s'.plan ≠ [] then .agent else .update_history))
    | .ok (.directOut r) =>
      let s' := { s with response := r }
      .ok (s', some (if s'.plan ≠ [] then .agent else .update_history))
  | .agent, s =>
    match s.plan with
    | [] => .ok ({ s with past_steps := s.past_steps ++ [(none, "")] }, some .replan)
    | st :: _ =>
      .ok ({ s with past_steps := s.past_steps ++ [(some st, env.stepExec st)] }, some .replan)
  | .replan, s =>
    match env.replanO s with
    | .error f => .error f
    | .ok (.respOut r) =>
      let s' := { s with response := r }
      .ok (s', some (if s'.response ≠ "" then .update_history else .agent))
    | .ok (.planOut steps) =>
      let s' := { s with plan := replanFilter steps s.past_steps }
      .ok (s', some (if s'.response ≠ "" then .update_history else .agent))
  | .update_history, s =>
    .ok ({ s with conversation_history :=
            update_conversation_history s.conversation_history s.input s.response }, none)

/-- Stream end of the plan-execute graph (same shape as `QEnd`). -/
inductive PEnd where
  | recursionError
  | finished (lastNode : PNode)
  deriving DecidableEq

/-- Drive the plan-execute graph under the default `recursion_limit`
of 25 supersteps. -/
def pDrive (env : PEnv) : Nat → PNode → PState → Except PyFault (PEnd × PState)
  | 0, _, s => .ok (.recursionError, s)
  | budget + 1, n, s =>
    match pApplyNode env n s with
    | .error f => .error f
    | .ok (s', none) => .ok (.finished n, s')
    | .ok (s', some n') => pDrive env budget n' s'

/-- Initial state built by `PlanExecuteAgent.call` for one turn
(`conversation_history` is the history the thread's checkpoint already
holds; the `[]` passed by `call` adds nothing through the reducer). -/
def pInit (input : String) (history : List (String × String)) : PState :=
  { input := input, conversation_history := history }

/-- What escapes `PlanExecuteAgent.call`: the graph-stream loop is not
wrapped in `try`, so node exceptions and `GraphRecursionError` propagate;
only the final extraction is guarded, falling back to
"Please reformulate.". -/
inductive PCallFault where
  | node (f : PyFault)
  | recursion
  deriving DecidableEq

/-- Model of `PlanExecuteAgent.call`: stream the graph (default recursion limit
25); exceptions during streaming propagate to the caller.  On normal
completion, `final_step['update_history']["conversation_history"][-1][1]`
is the turn's response; any extraction error yields
"Please reformulate.". -/
def pCall (env : PEnv) (input : String) (history : List (String × String)) :
    Except PCallFault String :=
  match pDrive env 25 .get_plan_or_response (pInit input history) with
  | .error f => .error (.node f)
  | .ok (.recursionError, _) => .error .recursion
  | .ok (.finished n, s) =>
    .ok (if n = .update_history then s.response else "Please reformulate.")

/-! ## Table analyzer (`PlanExecuteAgent.analyse_data`)

Tables are pandas DataFrames; `select_dtypes(include="number")` keeps the
numeric columns, `dropna()` drops missing values.  We model numeric
values as exact fractions (`Frac`, an integer numerator over a positive
natural denominator, compared by value), and the pandas statistic kernels
exactly mirroring their definitions (`std` with `ddof=1`, adjusted
Fisher-Pearson skewness — NaN below 3 points, unbiased excess kurtosis —
NaN below 4 points).  Square roots are taken exactly where they exist as
fractions; every concrete input below has an exact square root, which
IEEE doubles also represent exactly, so the model values coincide with
the floats the code computes. -/

/-- An exact fraction: numerator over a (kept positive) denominator.
Arithmetic is unnormalized; comparisons are by value
(cross-multiplication), matching real-number comparison of floats. -/
structure Frac where
  num : Int
  den : Nat
  deriving DecidableEq

instance : OfNat Frac n := ⟨⟨Int.ofNat n, 1⟩⟩

/-- Embed a natural number (list lengths, counts). -/
def Frac.ofNat (n : Nat) : Frac := ⟨Int.ofNat n, 1⟩

/-- Embed an integer. -/
def Frac.ofInt (n : Int) : Frac := ⟨n, 1⟩

/-- Fraction addition. -/
def Frac.add (a b : Frac) : Frac := ⟨a.num * b.den + b.num * a.den, a.den * b.den⟩

/-- Fraction negation. -/
def Frac.neg (a : Frac) : Frac := ⟨-a.num, a.den⟩

/-- Fraction subtraction. -/
def Frac.sub (a b : Frac) : Frac := a.add b.neg

/-- Fraction multiplication. -/
def Frac.mul (a b : Frac) : Frac := ⟨a.num * b.num, a.den * b.den⟩

/-- Fraction reciprocal (callers never invert zero). -/
def Frac.inv (a : Frac) : Frac :=
  if a.num < 0 then ⟨-(a.den : Int), a.num.natAbs⟩ else ⟨(a.den : Int), a.num.natAbs⟩

/-- Fraction division. -/
def Frac.div (a b : Frac) : Frac := a.mul b.inv

/-- Value comparison: `a < b`. -/
def Frac.blt (a b : Frac) : Bool := decide (a.num * b.den < b.num * a.den)

/-- Value equality: `a == b`. -/
def Frac.beqv (a b : Frac) : Bool := decide (a.num * (b.den : Int) = b.num * (a.den : Int))

/-- Absolute value. -/
def Frac.fabs (a : Frac) : Frac := ⟨|a.num|, a.den⟩

/-- Natural-number power. -/
def Frac.pow (a : Frac) : Nat → Frac
  | 0 => 1
  | k + 1 => a.mul (a.pow k)

/-- Floor to an integer. -/
def Frac.floor (a : Frac) : Int := Int.fdiv a.num a.den

instance : Add Frac := ⟨Frac.add⟩
instance : Sub Frac := ⟨Frac.sub⟩
instance : Mul Frac := ⟨Frac.mul⟩
instance : Div Frac := ⟨Frac.div⟩
instance : Neg Frac := ⟨Frac.neg⟩
instance : Pow Frac Nat := ⟨Frac.pow⟩
instance : Zero Frac := ⟨Frac.ofNat 0⟩

/-- Sum of a list of fractions. -/
def Frac.listSum (xs : List Frac) : Frac := xs.foldl Frac.add 0

/-- One Newton step loop for the integer square root, structurally
recursive on a fuel argument (the kernel can evaluate it). -/
def sqrtIter : Nat → Nat → Nat → Nat
  | 0, _, g => g
  | fuel + 1, m, g =>
    let g' := (g + m / g) / 2
    if g' < g then sqrtIter fuel m g' else g

/-- Integer square root, `⌊√m⌋`, by Newton iteration from an upper
bound. -/
def natSqrtE (m : Nat) : Nat :=
  if m ≤ 1 then m else sqrtIter m m (m / 2 + 1)

/-- Exact square root of a fraction: `sqrt (n / d) = sqrt (n * d) / d`
when `n * d` is a perfect square, else `none` (no concrete input below
reaches an irrational root). -/
def fracSqrt (q : Frac) : Option Frac :=
  if q.num < 0 then none
  else
    let m := q.num.toNat * q.den
    let s := natSqrtE m
    if s * s = m then some ⟨(s : Int), q.den⟩ else none

/-- Data held by one DataFrame column: numeric (with NaN as `none`) or
non-numeric, which `select_dtypes` discards. -/
inductive ColData where
  | num (vals : List (Option Frac))
  | text (vals : List String)
  deriving DecidableEq

/-- A loaded table: its row count and its named columns in order. -/
structure PyTable where
  nrows : Nat
  cols : List (String × ColData)
  deriving DecidableEq

/-- Model of `df.select_dtypes(include="number")`: the numeric columns, in column
order. -/
def numericColumns (t : PyTable) : List (String × List (Option Frac)) :=
  t.cols.filterMap fun p =>
    match p.2 with
    | .num vals => some (p.1, vals)
    | .text _ => none

/-- Mean of a list of values (`Series.mean`; callers ensure the list is
non-empty). -/
def meanQ (xs : List Frac) : Frac := (Frac.listSum xs).div (Frac.ofNat xs.length)

/-- Central moment of order `k`, divided by the length (the biased sample
moment pandas builds its estimators from). -/
def momentQ (k : Nat) (xs : List Frac) : Frac :=
  (Frac.listSum (xs.map fun x => (x - meanQ xs) ^ k)).div (Frac.ofNat xs.length)

/-- Minimum of a non-empty list by value (`Series.min`). -/
def minQ (xs : List Frac) : Frac :=
  match xs with
  | [] => 0
  | h :: t => t.foldl (fun a b => if Frac.blt b a then b else a) h

/-- Maximum of a non-empty list by value (`Series.max`). -/
def maxQ (xs : List Frac) : Frac :=
  match xs with
  | [] => 0
  | h :: t => t.foldl (fun a b => if Frac.blt a b then b else a) h

/-- Model of `Series.std` (ddof = 1): NaN for fewer than two points, else the
square root of the unbiased variance. -/
def stdQ (xs : List Frac) : Option Frac :=
  let n := xs.length
  if n < 2 then none
  else fracSqrt ((Frac.listSum (xs.map fun x => (x - meanQ xs) ^ 2)).div (Frac.ofNat (n - 1)))

/-- Model of `Series.skew` (adjusted Fisher-Pearson `G1`): NaN below three points,
`0` for zero variance or zero third moment, else
`m3 * sqrt (n * (n-1) / m2 ^ 3) / (n - 2)`. -/
def skewQ (xs : List Frac) : Option Frac :=
  let n := xs.length
  if n < 3 then none
  else
    let m2 := momentQ 2 xs
    let m3 := momentQ 3 xs
    if m2.beqv 0 then some 0
    else if m3.beqv 0 then some 0
    else (fracSqrt ((Frac.ofNat (n * (n - 1))).div (m2 ^ 3))).map fun r =>
      (m3.mul r).div (Frac.ofNat (n - 2))

/-- Model of `Series.kurtosis` (unbiased excess kurtosis `G2`): NaN below four
points, `0` for zero variance, else
`((n+1) * (m4 / m2^2 - 3) + 6) * (n-1) / ((n-2) * (n-3))`. -/
def kurtQ (xs : List Frac) : Option Frac :=
  let n := xs.length
  if n < 4 then none
  else
    let m2 := momentQ 2 xs
    let m4 := momentQ 4 xs
    if m2.beqv 0 then some 0
    else some ((((Frac.ofNat (n + 1)) * (m4 / m2 ^ 2 - 3) + 6) * Frac.ofNat (n - 1)).div
      (Frac.ofNat ((n - 2) * (n - 3))))

/-- Distinct-value count by value equality (`Series.nunique`, after
`dropna`). -/
def countUnique : List Frac → Nat
  | [] => 0
  | h :: t => if t.any (Frac.beqv h) then countUnique t else countUnique t + 1

/-- The per-column statistics dict built in `analyse_data` (`std`, `skew`,
`kurt` may be NaN, modelled as `none`). -/
structure ColStats where
  min : Frac
  max : Frac
  mean : Frac
  std : Option Frac
  skew : Option Frac
  kurt : Option Frac
  n_unique : Nat
  deriving DecidableEq

/-- The exact-real semantics of the pandas statistic calls of
`analyse_data` on the non-missing values of one column. -/
def computeStats (xs : List Frac) : ColStats :=
  { min := minQ xs
    max := maxQ xs
    mean := meanQ xs
    std := stdQ xs
    skew := skewQ xs
    kurt := kurtQ xs
    n_unique := countUnique xs }

/-- Python `possibly-NaN > threshold` (`NaN` compares false). -/
def optGT (o : Option Frac) (x : Frac) : Bool :=
  match o with
  | some v => Frac.blt x v
  | none => false

/-- Python `abs(possibly-NaN) > threshold` (`NaN` compares false). -/
def optAbsGT (o : Option Frac) (x : Frac) : Bool :=
  match o with
  | some v => Frac.blt x v.fabs
  | none => false

/-- Python `possibly-NaN == 0` (`NaN` compares false). -/
def optEqZero (o : Option Frac) : Bool :=
  match o with
  | some v => v.beqv 0
  | none => false

/-- The qualitative-notes block of `analyse_data`: one `if/elif/elif`
chain (constant / high variance / no variation), then two independent
appends (strongly skewed / peaked or heavy tails). -/
def colNotes (st : ColStats) : List String :=
  let notes0 : List String := []
  let notes1 :=
    if st.n_unique = 1 then notes0 ++ ["constant"]
    else if optGT st.std ((2 : Frac) * st.mean.fabs) then notes0 ++ ["high variance"]
    else if optEqZero st.std then notes0 ++ ["no variation"]
    else notes0
  let notes2 := if optAbsGT st.skew 2 then notes1 ++ ["strongly skewed"] else notes1
  if optAbsGT st.kurt 10 then notes2 ++ ["peaked or heavy tails"] else notes2

/-- Two-decimal fixed-point rendering of a fraction (`f"{x:.2f}"`),
rounding half to even as Python does. -/
def fmt2Rat (q : Frac) : String :=
  let scaled := q * 100
  let f : Int := scaled.floor
  let r := scaled - Frac.ofInt f
  let half : Frac := ⟨1, 2⟩
  let n : Int :=
    if r.blt half then f
    else if half.blt r then f + 1
    else if f % 2 = 0 then f else f + 1
  let a := n.natAbs
  (if n < 0 then "-" else "") ++ toString (a / 100) ++ "." ++
    (if a % 100 < 10 then "0" else "") ++ toString (a % 100)

/-- Rendering `f"{x:.2f}"` on a possibly-NaN value (`NaN` renders as "nan"). -/
def fmt2 (o : Option Frac) : String :=
  match o with
  | some q => fmt2Rat q
  | none => "nan"

/-- One summary line of `analyse_data` for a column: the six statistics at
two decimals, the distinct count, and the notes suffix when any note was
produced. -/
def summaryLine (col : String) (st : ColStats) : String :=
  let line := "- **" ++ col ++ "**: " ++
    "min=" ++ fmt2Rat st.min ++ ", max=" ++ fmt2Rat st.max ++
    ", mean=" ++ fmt2Rat st.mean ++ ", std=" ++ fmt2 st.std ++
    ", skew=" ++ fmt2 st.skew ++ ", kurtosis=" ++ fmt2 st.kurt ++
    ", unique=" ++ toString st.n_unique
  let notes := colNotes st
  if notes ≠ [] then line ++ " — _" ++ String.intercalate " | " notes ++ "_" else line

/-- Python `str(list_of_strings)`: the bracketed, comma-separated,
single-quoted rendering used in the unknown-table error message. -/
def pyStrListRepr (names : List String) : String :=
  "[" ++ String.intercalate ", " (names.map fun n => "'" ++ n ++ "'") ++ "]"

/-- The per-session state `analyse_data` touches: the loaded tables
(`self.data`) and the insertion-ordered analysis cache
(`self.analysis_cache`), both Python dicts modelled as association lists
in insertion order. -/
structure AgentSession where
  data : List (String × PyTable)
  analysis_cache : List (String × String)
  deriving DecidableEq

/-- Model of `PlanExecuteAgent.analyse_data`, parameterized by the pandas statistic
kernel `statsK`.  Returns the summary (or error) text together with the
updated session.  Faithful to the source: a cache hit returns the cached
text; an unknown table caches its error message without any eviction; a
table with no numeric data returns a fixed message without caching; the
statistics path caches the composed summary and then, only there, evicts
the oldest-inserted entry when the cache exceeds 20 entries. -/
def analyse_data (statsK : List Frac → ColStats) (s : AgentSession)
    (table_name : String) : String × AgentSession :=
  let cache_key := "analysis_" ++ table_name
  match s.analysis_cache.lookup cache_key with
  | some v => (v, s)
  | none =>
    match s.data.lookup table_name with
    | none =>
      let error_msg := "Error: Table '" ++ table_name ++ "' not found. Available tables: " ++
        pyStrListRepr (s.data.map Prod.fst)
      (error_msg, { s with analysis_cache := s.analysis_cache ++ [(cache_key, error_msg)] })
    | some t =>
      let ncols := numericColumns t
      if ncols = [] ∨ t.nrows = 0 then
        ("Table " ++ table_name ++ " has no numeric telemetry data.", s)
      else
        let lines := ncols.filterMap fun p =>
          let col_data := p.2.filterMap id
          if col_data = [] then none else some (summaryLine p.1 (statsK col_data))
        let result := String.intercalate "\n"
          (("Summary of `" ++ table_name ++ "` Table\n") :: lines)
        let cache1 := s.analysis_cache ++ [(cache_key, result)]
        let cache2 := if 20 < cache1.length then cache1.drop 1 else cache1
        (result, { s with analysis_cache := cache2 })

/-! ## Streaming chat endpoint (`main.py`) -/

/-- The methods defined on class `PlanExecuteAgent` in
`agent/PlanExecuteAgent.py`. -/
def planExecuteAgentMethods : List String :=
  ["__init__", "call_query_agent", "analyse_data", "get_plan_or_response",
   "execute_step", "replan", "update_conversation_history", "call"]

/-- Python attribute lookup on an object whose class defines the given
method names: a missing name raises `AttributeError`. -/
def getattrMethod (methods : List String) (name : String) : Except PyFault String :=
  if methods.contains name then .ok name else .error (.attributeError name)

/-- Outcome of a streaming response body: the invalid-session JSON error
body, or the SSE events actually yielded before the generator either
finished or raised. -/
inductive StreamBody where
  | errorJson (body : String)
  | events (yielded : List String) (fault : Option PyFault)
  deriving DecidableEq

/-- Model of `chat_stream_endpoint` from `main.py`: look the session up in the
registry; a missing session streams the error JSON; otherwise the event
generator's first action is the attribute lookup `agent.call_stream`,
which raises before anything is yielded whenever the class defines no
such method. -/
def chat_stream_endpoint (sessions : List String) (sessionId : String)
    (_message : String) : StreamBody :=
  if sessions.contains sessionId then
    match getattrMethod planExecuteAgentMethods "call_stream" with
    | .ok _ => .events [] none
    | .error f => .events [] (some f)
  else
    .errorJson "\x7b\"error\": \"Invalid or expired session ID\"\x7d"

/-! ## Scenario instances

Concrete collaborator instantiations and session states used to evaluate
the models on the inputs the claims talk about. -/

/-- Iterated turns against the conversation history: turn `n` records the
pair `f n`. -/
def runTurns (f : Nat → String × String) : Nat → List (String × String)
  | 0 => []
  | n + 1 => update_conversation_history (runTurns f n) (f n).1 (f n).2

/-- A tokenization of "DROP TABLE logs" in which `DROP` carries the plain
`Keyword` token type. -/
def c4Parsed : List (List SqlToken) :=
  [[⟨true, "DROP"⟩, ⟨false, " "⟩, ⟨true, "TABLE"⟩, ⟨false, " "⟩, ⟨false, "logs"⟩]]

/-- Query-agent collaborators whose generated query the safety filter
rejects (`is_safe_query` on `c4Parsed`); the executor is never reached. -/
def c4Env : QEnv :=
  { writeGen := fun _ => "DROP TABLE logs"
    repairGen := fun _ => "DROP TABLE logs"
    summarize := fun _ => "summary"
    runQ := fun _ => .error "unreachable"
    safe := fun _ => is_safe_query c4Parsed }

/-- The query-graph state at `execute_query` after `write_query` produced
the unsafe query. -/
def c4State : QState :=
  { question := "clear the logs", sql_query := some "DROP TABLE logs",
    attempts := ["DROP TABLE logs"] }

/-- Query-agent collaborators for an always-failing executor: every
generated query is safe but every execution reports an error. -/
def qFailEnv : QEnv :=
  { writeGen := fun s => "Q" ++ toString s.attempts.length
    repairGen := fun s => "Q" ++ toString s.attempts.length
    summarize := fun _ => "summary"
    runQ := fun _ => .error "no such column"
    safe := fun _ => true }

/-- Plan-execute collaborators where the replanner first returns an
empty-string `Response` (treated as falsy by the conditional edge) and
then a real response. -/
def pLoopEnv : PEnv :=
  { decideO := .ok (.planOut [.query "q1"])
    stepExec := fun _ => "r1"
    replanO := fun s =>
      if s.past_steps.length ≤ 1 then .ok (.respOut "") else .ok (.respOut "done") }

/-- Plan-execute collaborators whose planning call raises an
infrastructure fault. -/
def pFaultEnv : PEnv :=
  { decideO := .error (.infra "llm timeout")
    stepExec := fun _ => ""
    replanO := fun _ => .ok (.respOut "done") }

/-- Plan-execute collaborators that answer directly, for a clean
completed turn. -/
def pOkEnv : PEnv :=
  { decideO := .ok (.directOut "hello")
    stepExec := fun _ => ""
    replanO := fun _ => .ok (.respOut "done") }

/-- Twenty-one distinct table names. -/
def cNames : List String := (List.range 21).map fun i => "T" ++ toString i

/-- A one-row table with a single numeric column. -/
def oneColTable : PyTable := { nrows := 1, cols := [("V", .num [some 1])] }

/-- A session with no tables loaded and an empty analysis cache. -/
def emptySession : AgentSession := { data := [], analysis_cache := [] }

/-- A session holding the twenty-one tables of `cNames`. -/
def c5DataSession : AgentSession :=
  { data := cNames.map fun n => (n, oneColTable), analysis_cache := [] }

/-- Analyse every name of `cNames` in order against a session. -/
def analyseAll (s : AgentSession) : AgentSession :=
  cNames.foldl (fun s n => (analyse_data computeStats s n).2) s

/-- The `GPS_0` table of the end-to-end scenario: one numeric column
`Alt` with values 10, 20, 30. -/
def gpsTable : PyTable :=
  { nrows := 3, cols := [("Alt", .num [some 10, some 20, some 30])] }

/-- A session holding only `GPS_0`. -/
def gpsSession : AgentSession := { data := [("GPS_0", gpsTable)], analysis_cache := [] }

/-- The error text `analyse_data` produces for an unknown table name
(abbreviation of the expression in the source). -/
def unknownTableMsg (s : AgentSession) (name : String) : String :=
  "Error: Table '" ++ name ++ "' not found. Available tables: " ++
    pyStrListRepr (s.data.map Prod.fst)

/-- The summary text `analyse_data` composes on its statistics path
(abbreviation of the expression in the source). -/
def summaryText (statsK : List Frac → ColStats) (name : String) (t : PyTable) : String :=
  String.intercalate "\n"
    (("Summary of `" ++ name ++ "` Table\n") ::
      (numericColumns t).filterMap fun p =>
        let col_data := p.2.filterMap id
        if col_data = [] then none else some (summaryLine p.1 (statsK col_data)))

/-- The steps recorded in past steps (dropping the empty-plan
placeholders). -/
def pastStepList (s : PState) : List PStep := s.past_steps.filterMap Prod.fst

/-- Node-indexed invariant of the plan-execute graph within one turn:
recorded steps are pairwise distinct, the entry node has recorded
nothing yet, and on entry to the execution node the head of the plan is
not yet recorded. -/
def pInv : PNode → PState → Prop
  | .get_plan_or_response, s => s.past_steps = []
  | .agent, s => (pastStepList s).Nodup ∧
      ∀ st, s.plan.head? = some st → some st ∉ s.past_steps.map Prod.fst
  | .replan, s => (pastStepList s).Nodup
  | .update_history, s => (pastStepList s).Nodup

/-! ## Claim theorems -/

/-- Appending a single element preserves `Nodup` exactly when the element
is new. -/
theorem nodup_concat {α : Type} (l : List α) (a : α) :
    (l ++ [a]).Nodup ↔ l.Nodup ∧ a ∉ l := by
  simp [List.nodup_append]

/-- A key absent from the front association list is looked up in the
back. -/
theorem lookup_append_right {α β : Type} [BEq α] (l l' : List (α × β)) (k : α)
    (h : l.lookup k = none) : (l ++ l').lookup k = l'.lookup k := by
  induction l with
  | nil => simp
  | cons p t ih =>
    cases p with
    | mk pk pv =>
      rw [List.cons_append]
      simp only [List.lookup] at h ⊢
      cases hb : (k == pk) with
      | true => rw [hb] at h; exact Option.noConfusion h
      | false => rw [hb] at h; exact ih h

/-- Membership in the step projection of past steps. -/
theorem mem_filterMap_fst {α β : Type} (l : List (Option α × β)) (a : α) :
    a ∈ l.filterMap Prod.fst ↔ some a ∈ l.map Prod.fst := by
  simp [List.mem_filterMap, List.mem_map]

/-- A cache hit returns the cached text and leaves the session
unchanged. -/
theorem analyse_cache_hit (statsK : List Frac → ColStats) (s : AgentSession)
    (name v : String)
    (h : s.analysis_cache.lookup ("analysis_" ++ name) = some v) :
    analyse_data statsK s name = (v, s) := by
  simp only [analyse_data, h]

/-- An unknown table name yields the error message and inserts it into
the cache without any eviction. -/
theorem analyse_unknown_eq (statsK : List Frac → ColStats) (s : AgentSession)
    (name : String)
    (hkey : s.analysis_cache.lookup ("analysis_" ++ name) = none)
    (hmiss : s.data.lookup name = none) :
    analyse_data statsK s name =
      (unknownTableMsg s name,
        { s with analysis_cache := s.analysis_cache ++
            [("analysis_" ++ name, unknownTableMsg s name)] }) := by
  simp only [analyse_data, hkey, hmiss, unknownTableMsg]

/-- A found table with numeric data yields the composed summary, caches
it, and evicts the oldest entry exactly when the cache then exceeds 20
entries. -/
theorem analyse_success_eq (statsK : List Frac → ColStats) (s : AgentSession)
    (name : String) (t : PyTable)
    (hkey : s.analysis_cache.lookup ("analysis_" ++ name) = none)
    (hdata : s.data.lookup name = some t)
    (hne : ¬(numericColumns t = [] ∨ t.nrows = 0)) :
    analyse_data statsK s name =
      (summaryText statsK name t,
        { s with analysis_cache :=
            if 20 < (s.analysis_cache ++
                [("analysis_" ++ name, summaryText statsK name t)]).length then
              (s.analysis_cache ++
                [("analysis_" ++ name, summaryText statsK name t)]).drop 1
            else
              s.analysis_cache ++ [("analysis_" ++ name, summaryText statsK name t)] }) := by
  simp only [analyse_data, hkey, hdata, summaryText]
  rw [if_neg hne]

/-- C3: the Safety Filter returns `false` if and only if some statement
token list produced by the parser contains a keyword token whose value,
uppercased, is one of DROP, DELETE, INSERT, UPDATE, PRAGMA; on every
token list without such a token it returns `true`.  It is a pure function
of its input (a Lean `def` with no state). -/
theorem c3_safety_filter_rejects_iff (parsed : List (List SqlToken)) :
    (is_safe_query parsed = false ↔
      ∃ st ∈ parsed, ∃ t ∈ st, t.isKeyword = true ∧ pyUpper t.value ∈ disallowedKeywords) ∧
    (is_safe_query parsed = true ↔
      ∀ st ∈ parsed, ∀ t ∈ st, ¬(t.isKeyword = true ∧ pyUpper t.value ∈ disallowedKeywords)) := by
  constructor
  · rw [← Bool.not_eq_true, is_safe_query]
    simp [List.all_eq_true]
  · rw [is_safe_query]
    simp only [List.all_eq_true, Bool.not_eq_true', Bool.and_eq_false_iff]
    refine forall₂_congr fun st hst => forall₂_congr fun t ht => ?_
    cases hk : t.isKeyword <;> simp

/-- C4 (code bug): on a query the Safety Filter rejects, `execute_query`
never reaches the execution engine, but instead of returning a
descriptive `sql_error` result it raises `KeyError('query')` — the
unsafe-branch message reads `state['query']`, a key `QueryAgentState`
does not have — so the rejection escapes as a fault that `QueryAgent.call`
turns into the generic failure message instead of feeding the repair
loop. -/
theorem c4_unsafe_query_raises_keyerror :
    is_safe_query c4Parsed = false ∧
    qApplyNode c4Env .execute_query c4State = .error (.keyError "query") ∧
    qCall c4Env "clear the logs" = "Something went wrong. Please try again." :=
  ⟨rfl, rfl, rfl⟩

/-- C10: class `PlanExecuteAgent` defines no method `call_stream`, so for
every registered session id the streaming chat endpoint's event generator
raises `AttributeError` on its first step, before yielding any response
event. -/
theorem c10_call_stream_missing (sessions : List String) (sid msg : String)
    (h : sessions.contains sid = true) :
    "call_stream" ∉ planExecuteAgentMethods ∧
    chat_stream_endpoint sessions sid msg =
      .events [] (some (.attributeError "call_stream")) := by
  refine ⟨by decide, ?_⟩
  unfold chat_stream_endpoint
  rw [h]
  rfl

/-- Witness for C10 at a registry holding session "s1". -/
theorem c10_call_stream_missing_witness :
    "call_stream" ∉ planExecuteAgentMethods ∧
    chat_stream_endpoint ["s1"] "s1" "hi" =
      .events [] (some (.attributeError "call_stream")) :=
  c10_call_stream_missing ["s1"] "s1" "hi" (by decide)

/-- C6: every `update_conversation_history` keeps the history at 10 turns
or fewer; at exactly 10 turns the oldest pair is evicted before the new
pair is appended; and 11 sequential turns from an empty history leave
exactly the most recent 10 pairs, oldest evicted first. -/
theorem c6_history_bound (history : List (String × String)) (input response : String)
    (h : history.length ≤ 10) :
    (update_conversation_history history input response).length ≤ 10 ∧
    (history.length = 10 →
      update_conversation_history history input response =
        history.drop 1 ++ [(input, response)]) ∧
    (∀ f : Nat → String × String,
      runTurns f 11 = (List.range 10).map fun i => f (i + 1)) := by
  refine ⟨?_, ?_, fun f => by
    simp [runTurns, update_conversation_history, List.range_succ]⟩
  · unfold update_conversation_history
    by_cases hl : history.length ≥ 10
    · simp only [hl, if_true, List.length_append, List.length_drop, List.length_cons,
        List.length_nil]
      omega
    · simp only [hl, if_false, List.length_append, List.length_cons, List.length_nil]
      omega
  · intro h10
    unfold update_conversation_history
    rw [if_pos (by omega)]

/-- Witness for C6 at a history of exactly 10 turns. -/
theorem c6_history_bound_witness :
    (update_conversation_history ((List.range 10).map fun i => (toString i, toString i))
      "u" "r").length ≤ 10 := by
  exact (c6_history_bound _ "u" "r" (by decide)).1

/-- C8: analysing a table name that is not loaded raises no fault: it
returns the error string naming the table and listing exactly the loaded
table names, caches it, and a repeated call returns the identical
text. -/
theorem c8_unknown_table (statsK : List Frac → ColStats) (s : AgentSession) (name : String)
    (hkey : s.analysis_cache.lookup ("analysis_" ++ name) = none)
    (hmiss : s.data.lookup name = none) :
    (analyse_data statsK s name).1 =
      "Error: Table '" ++ name ++ "' not found. Available tables: " ++
        pyStrListRepr (s.data.map Prod.fst) ∧
    (∃ pre post, (analyse_data statsK s name).1 =
      pre ++ ("Table '" ++ name ++ "' not found") ++ post) ∧
    (analyse_data statsK (analyse_data statsK s name).2 name).1 =
      (analyse_data statsK s name).1 := by
  have hmain : analyse_data statsK s name =
      (unknownTableMsg s name,
        { s with analysis_cache := s.analysis_cache ++
            [("analysis_" ++ name, unknownTableMsg s name)] }) :=
    analyse_unknown_eq statsK s name hkey hmiss
  refine ⟨by rw [hmain]; rfl, ?_, ?_⟩
  · refine ⟨"Error: ", ". Available tables: " ++ pyStrListRepr (s.data.map Prod.fst), ?_⟩
    rw [hmain]
    show unknownTableMsg s name = _
    unfold unknownTableMsg
    rw [show ("Error: Table '" : String) = "Error: " ++ "Table '" by decide]
    rw [show ("' not found. Available tables: " : String) =
      "' not found" ++ ". Available tables: " by decide]
    simp only [String.append_assoc]
  · have hcache : (analyse_data statsK s name).2.analysis_cache.lookup ("analysis_" ++ name) =
        some ((analyse_data statsK s name).1) := by
      rw [hmain]
      show (s.analysis_cache ++ [("analysis_" ++ name, unknownTableMsg s name)]).lookup
        ("analysis_" ++ name) = some (unknownTableMsg s name)
      rw [lookup_append_right _ _ _ hkey]
      simp [List.lookup]
    rw [analyse_cache_hit statsK _ name _ hcache]

/-- Witness for C8: analysing `FOO` against the `GPS_0` session. -/
theorem c8_unknown_table_witness :
    (analyse_data computeStats gpsSession "FOO").1 =
      "Error: Table 'FOO' not found. Available tables: ['GPS_0']" ∧
    (analyse_data computeStats (analyse_data computeStats gpsSession "FOO").2 "FOO").1 =
      (analyse_data computeStats gpsSession "FOO").1 := by
  have h := c8_unknown_table computeStats gpsSession "FOO" (by decide) (by decide)
  exact ⟨h.1, h.2.2⟩

/-- C5 counterexample: twenty-one analyse operations on unknown table
names leave the analysis cache with 21 entries — the error path caches
without evicting, so "after every analyse operation the cache holds at
most 20 entries" is false. -/
theorem c5_counterexample :
    (analyseAll emptySession).analysis_cache.length = 21 ∧
    ¬((analyseAll emptySession).analysis_cache.length ≤ 20) := by
  exact ⟨by decide, by decide⟩

/-- C5 amended: on the statistics path (table found, numeric data,
cache miss) an analyse operation starting from a cache of at most 20
entries leaves at most 20 entries; below the bound it only appends, at
the bound it evicts exactly the oldest-inserted entry (FIFO, independent
of hit recency); and analysing 21 distinct loaded tables leaves exactly
the keys of tables 2 through 21, the 1st-inserted entry evicted.  The
unknown-table error path, however, inserts without evicting (see the
counterexample). -/
theorem c5_amended (statsK : List Frac → ColStats) (s : AgentSession)
    (name : String) (t : PyTable)
    (hb : s.analysis_cache.length ≤ 20)
    (hkey : s.analysis_cache.lookup ("analysis_" ++ name) = none)
    (hdata : s.data.lookup name = some t)
    (hne : ¬(numericColumns t = [] ∨ t.nrows = 0)) :
    (analyse_data statsK s name).2.analysis_cache.length ≤ 20 ∧
    (s.analysis_cache.length < 20 →
      (analyse_data statsK s name).2.analysis_cache =
        s.analysis_cache ++ [("analysis_" ++ name, (analyse_data statsK s name).1)]) ∧
    (s.analysis_cache.length = 20 →
      (analyse_data statsK s name).2.analysis_cache =
        (s.analysis_cache ++ [("analysis_" ++ name, (analyse_data statsK s name).1)]).drop 1) ∧
    ((analyseAll c5DataSession).analysis_cache.map Prod.fst =
      (cNames.drop 1).map fun n => "analysis_" ++ n) := by
  have hmain := analyse_success_eq statsK s name t hkey hdata hne
  have hres : (analyse_data statsK s name).1 = summaryText statsK name t := by rw [hmain]
  have hc2 : (analyse_data statsK s name).2.analysis_cache =
      if 20 < (s.analysis_cache ++ [("analysis_" ++ name, summaryText statsK name t)]).length
      then (s.analysis_cache ++ [("analysis_" ++ name, summaryText statsK name t)]).drop 1
      else s.analysis_cache ++ [("analysis_" ++ name, summaryText statsK name t)] := by
    rw [hmain]
  refine ⟨?_, ?_, ?_, by decide⟩
  · rw [hc2]
    by_cases hcl : 20 < (s.analysis_cache ++
        [("analysis_" ++ name, summaryText statsK name t)]).length
    · rw [if_pos hcl]
      simp only [List.length_drop, List.length_append, List.length_cons, List.length_nil]
      omega
    · rw [if_neg hcl]
      revert hcl
      simp only [List.length_append, List.length_cons, List.length_nil]
      omega
  · intro hlt
    rw [hres, hc2, if_neg (by
      simp only [List.length_append, List.length_cons, List.length_nil]
      omega)]
  · intro heq
    rw [hres, hc2, if_pos (by
      simp only [List.length_append, List.length_cons, List.length_nil]
      omega)]

/-- Witness for C5 amended: a first successful analysis of `GPS_0`
leaves the cache within the bound. -/
theorem c5_amended_witness :
    (analyse_data computeStats gpsSession "GPS_0").2.analysis_cache.length ≤ 20 :=
  (c5_amended computeStats gpsSession "GPS_0" gpsTable (by decide) (by decide)
    (by decide) (by decide)).1

/-- C7: the qualitative notes follow exactly the specified first-match
precedence (constant, else high variance, else no variation) with the two
independent appends (strongly skewed, peaked or heavy tails); each column
line is the six statistics at two decimals plus the distinct count and
the notes suffix; and the `GPS_0` scenario with `Alt = [10, 20, 30]`
yields min=10.00, max=30.00, mean=20.00, unique=3 and no qualitative
notes. -/
theorem c7_analysis_notes_and_example :
    (∀ st : ColStats,
      colNotes st =
        (if st.n_unique = 1 then ["constant"]
         else if optGT st.std ((2 : Frac) * st.mean.fabs) then ["high variance"]
         else if optEqZero st.std then ["no variation"]
         else []) ++
        (if optAbsGT st.skew 2 then ["strongly skewed"] else []) ++
        (if optAbsGT st.kurt 10 then ["peaked or heavy tails"] else [])) ∧
    (∀ (col : String) (st : ColStats),
      summaryLine col st =
        ("- **" ++ col ++ "**: " ++ "min=" ++ fmt2Rat st.min ++ ", max=" ++
          fmt2Rat st.max ++ ", mean=" ++ fmt2Rat st.mean ++ ", std=" ++ fmt2 st.std ++
          ", skew=" ++ fmt2 st.skew ++ ", kurtosis=" ++ fmt2 st.kurt ++
          ", unique=" ++ toString st.n_unique) ++
        (if colNotes st = [] then ""
         else " — _" ++ String.intercalate " | " (colNotes st) ++ "_")) ∧
    colNotes (computeStats [10, 20, 30]) = [] ∧
    (analyse_data computeStats gpsSession "GPS_0").1 =
      "Summary of `GPS_0` Table\n\n- **Alt**: min=10.00, max=30.00, mean=20.00, std=10.00, skew=0.00, kurtosis=nan, unique=3" := by
  refine ⟨?_, ?_, by decide, by decide⟩
  · intro st
    simp only [colNotes]
    split_ifs <;> simp
  · intro col st
    simp only [summaryLine]
    by_cases h : colNotes st = []
    · simp [h]
    · simp [h, String.append_assoc]

/-- Unfolding one superstep of the query graph. -/
theorem qDrive_step (env : QEnv) (b : Nat) (n : QNode) (s s' : QState) (n' : QNode)
    (h : qApplyNode env n s = .ok (s', some n')) :
    qDrive env (b + 1) n s = qDrive env b n' s' := by
  conv_lhs => unfold qDrive
  rw [h]

/-- Node `write_query` records the generated query and moves to execution. -/
theorem qApply_write (env : QEnv) (s : QState) :
    qApplyNode env .write_query s =
      .ok ({ s with
              sql_query := some (env.writeGen s),
              attempts := s.attempts ++ [env.writeGen s] }, some .execute_query) := rfl

/-- Node `execute_query` on a safe query whose execution fails records the
error and moves to repair. -/
theorem qApply_exec_err (env : QEnv) (s : QState) (q e : String)
    (hq : s.sql_query = some q) (hsafe : env.safe q = true)
    (he : env.runQ q = .error e) :
    qApplyNode env .execute_query s =
      .ok ({ s with sql_result := none, sql_error := some e }, some .replan_query) := by
  unfold qApplyNode
  simp only [hq, Option.getD_some]
  rw [hsafe, if_neg (by simp), he]

/-- Node `replan_query` below the attempt ceiling records a fresh attempt and
moves back to execution. -/
theorem qApply_replan_gen (env : QEnv) (s : QState) (h : s.attempts.length < 5) :
    qApplyNode env .replan_query s =
      .ok ({ s with
              sql_query := some (env.repairGen s),
              attempts := s.attempts ++ [env.repairGen s] }, some .execute_query) := by
  simp only [qApplyNode]
  rw [if_neg (by omega)]

/-- C1 counterexample: with a generator whose every executed query fails,
`QueryAgent.call` does not stop after 5 attempts with
"Failed after 5 attempts." — the `recursion_limit 5` ceiling aborts the
stream first, after only 3 recorded attempts, and `call` returns
"I couldn't access the information". -/
theorem c1_counterexample :
    qCall qFailEnv "max altitude" = "I couldn't access the information" ∧
    qDrive qFailEnv 5 .write_query (qInit "max altitude") =
      .ok (.recursionError,
        { question := "max altitude", sql_query := some "Q2", sql_result := none,
          sql_error := some "no such column", attempts := ["Q0", "Q1", "Q2"],
          final_answer := none }) ∧
    qCall qFailEnv "max altitude" ≠ "Failed after 5 attempts." :=
  ⟨rfl, rfl, by decide⟩

/-- C1 amended: for every generator and every executor that always fails
(on safety-filter-passing queries), the query loop is aborted by the
`recursion_limit 5` superstep ceiling: `call` returns
"I couldn't access the information", exactly 3 query attempts (and hence
3 generation calls, not 5) are recorded, and the `attempts ≥ 5` ceiling
of `replan_query` never fires — reaching it would need 9 supersteps. -/
theorem c1_amended (env : QEnv) (question : String)
    (hsafe : ∀ q, env.safe q = true)
    (herr : ∀ q, ∃ e, env.runQ q = .error e) :
    qCall env question = "I couldn't access the information" ∧
    ∀ e st, qDrive env 5 .write_query (qInit question) = .ok (e, st) →
      e = .recursionError ∧ st.attempts.length = 3 := by
  have s0 := qInit question
  set s1 : QState := ({ qInit question with
                        sql_query := some (env.writeGen (qInit question))
                        attempts := (qInit question).attempts ++
                          [env.writeGen (qInit question)] } : QState) with hs1
  obtain ⟨e1, he1⟩ := herr (env.writeGen (qInit question))
  set s2 : QState := ({ s1 with sql_result := none, sql_error := some e1 } : QState)
    with hs2
  set s3 : QState := ({ s2 with
                        sql_query := some (env.repairGen s2)
                        attempts := s2.attempts ++ [env.repairGen s2] } : QState) with hs3
  obtain ⟨e2, he2⟩ := herr (env.repairGen s2)
  set s4 : QState := ({ s3 with sql_result := none, sql_error := some e2 } : QState)
    with hs4
  set s5 : QState := ({ s4 with
                        sql_query := some (env.repairGen s4)
                        attempts := s4.attempts ++ [env.repairGen s4] } : QState) with hs5
  have d : qDrive env 5 .write_query (qInit question) = .ok (.recursionError, s5) := by
    rw [qDrive_step env 4 _ _ s1 _ (qApply_write env (qInit question))]
    rw [qDrive_step env 3 _ _ s2 _
      (qApply_exec_err env s1 (env.writeGen (qInit question)) e1 rfl
        (hsafe _) he1)]
    rw [qDrive_step env 2 _ _ s3 _
      (qApply_replan_gen env s2 (by simp [hs2, hs1, qInit]))]
    rw [qDrive_step env 1 _ _ s4 _
      (qApply_exec_err env s3 (env.repairGen s2) e2 rfl (hsafe _) he2)]
    rw [qDrive_step env 0 _ _ s5 _
      (qApply_replan_gen env s4 (by simp [hs4, hs3, hs2, hs1, qInit]))]
    rfl
  constructor
  · unfold qCall
    rw [d]
  · intro e st h
    rw [d] at h
    rw [Except.ok.injEq, Prod.mk.injEq] at h
    refine ⟨h.1.symm, ?_⟩
    rw [← h.2]
    simp [hs5, hs4, hs3, hs2, hs1, qInit]

/-- Witness for C1 amended at the concrete always-failing environment. -/
theorem c1_amended_witness :
    qCall qFailEnv "max temp" = "I couldn't access the information" :=
  (c1_amended qFailEnv "max temp" (fun _ => rfl)
    (fun _ => ⟨"no such column", rfl⟩)).1

/-- Every step surviving the replan duplicate filter is absent from the
recorded past steps. -/
theorem replanFilter_not_mem (steps : List PStep) (past : List (Option PStep × String)) :
    ∀ st ∈ replanFilter steps past, some st ∉ past.map Prod.fst := by
  intro st hst
  have h := List.of_mem_filter hst
  exact of_decide_eq_true h

/-- The node invariant always carries distinctness of the recorded
steps. -/
theorem pInv_nodup (n : PNode) (s : PState) (h : pInv n s) : (pastStepList s).Nodup := by
  cases n with
  | get_plan_or_response =>
    simp only [pInv] at h
    simp [pastStepList, h]
  | agent => exact h.1
  | replan => exact h
  | update_history => exact h

/-- One superstep of the plan-execute graph preserves the node
invariant, provided the replanner never returns an empty-string
response. -/
theorem pApply_preserves (env : PEnv)
    (hresp : ∀ s r, env.replanO s = .ok (.respOut r) → r ≠ "")
    (n : PNode) (s : PState) (hinv : pInv n s) (s' : PState) (n'opt : Option PNode)
    (happ : pApplyNode env n s = .ok (s', n'opt)) :
    (pastStepList s').Nodup ∧ ∀ n', n'opt = some n' → pInv n' s' := by
  cases n with
  | get_plan_or_response =>
    simp only [pInv] at hinv
    revert happ
    cases hdec : env.decideO with
    | error f => simp [pApplyNode, hdec]
    | ok t =>
      cases t with
      | planOut ps =>
        simp only [pApplyNode, hdec]
        intro happ
        injection happ with hpair
        injection hpair with h1 h2
        subst h1
        subst h2
        refine ⟨by simp [pastStepList, hinv], ?_⟩
        intro n' hn'
        injection hn' with hn'
        subst hn'
        split
        · exact ⟨by simp [pastStepList, hinv], by simp [hinv]⟩
        · simp [pInv, pastStepList, hinv]
      | directOut r =>
        simp only [pApplyNode, hdec]
        intro happ
        injection happ with hpair
        injection hpair with h1 h2
        subst h1
        subst h2
        refine ⟨by simp [pastStepList, hinv], ?_⟩
        intro n' hn'
        injection hn' with hn'
        subst hn'
        split
        · exact ⟨by simp [pastStepList, hinv], by simp [hinv]⟩
        · simp [pInv, pastStepList, hinv]
  | agent =>
    obtain ⟨hnd, hhead⟩ := hinv
    revert happ
    cases hplan : s.plan with
    | nil =>
      simp only [pApplyNode, hplan]
      intro happ
      injection happ with hpair
      injection hpair with h1 h2
      subst h1
      subst h2
      refine ⟨by simpa [pastStepList, List.filterMap_append] using hnd, ?_⟩
      intro n' hn'
      injection hn' with hn'
      subst hn'
      show (pastStepList _).Nodup
      simpa [pastStepList, List.filterMap_append] using hnd
    | cons st rest =>
      simp only [pApplyNode, hplan]
      intro happ
      injection happ with hpair
      injection hpair with h1 h2
      subst h1
      subst h2
      have hnew : pastStepList { s with
          past_steps := s.past_steps ++ [(some st, env.stepExec st)] } =
          pastStepList s ++ [st] := by
        simp [pastStepList, List.filterMap_append]
      have hnotin : st ∉ pastStepList s := by
        intro hmem
        exact hhead st (by rw [hplan]; rfl) ((mem_filterMap_fst s.past_steps st).mp hmem)
      have hnd' : (pastStepList { s with
          past_steps := s.past_steps ++ [(some st, env.stepExec st)] }).Nodup := by
        rw [hnew, nodup_concat]
        exact ⟨hnd, hnotin⟩
      refine ⟨hnd', ?_⟩
      intro n' hn'
      injection hn' with hn'
      subst hn'
      exact hnd'
  | replan =>
    revert happ
    cases hrep : env.replanO s with
    | error f => simp [pApplyNode, hrep]
    | ok a =>
      cases a with
      | respOut r =>
        simp only [pApplyNode, hrep]
        intro happ
        injection happ with hpair
        injection hpair with h1 h2
        subst h1
        subst h2
        refine ⟨hinv, ?_⟩
        intro n' hn'
        injection hn' with hn'
        subst hn'
        split
        · exact hinv
        · exact ⟨hinv, by
            intro st hst hmem
            have hr := hresp s r hrep
            simp_all⟩
      | planOut steps =>
        simp only [pApplyNode, hrep]
        intro happ
        injection happ with hpair
        injection hpair with h1 h2
        subst h1
        subst h2
        refine ⟨hinv, ?_⟩
        intro n' hn'
        injection hn' with hn'
        subst hn'
        split
        · exact hinv
        · refine ⟨hinv, ?_⟩
          intro st hst
          have hmem : st ∈ replanFilter steps s.past_steps := by
            cases hfil : replanFilter steps s.past_steps with
            | nil => rw [hfil] at hst; exact Option.noConfusion hst
            | cons a t =>
              rw [hfil] at hst
              injection hst with hst
              rw [← hst]
              exact List.mem_cons_self a t
          exact replanFilter_not_mem steps s.past_steps st hmem
  | update_history =>
    simp only [pApplyNode] at happ
    injection happ with hpair
    injection hpair with h1 h2
    subst h1
    subst h2
    exact ⟨hinv, fun n' hn' => Option.noConfusion hn'⟩

/-- Any run of the plan-execute graph from an invariant-satisfying
configuration ends with pairwise-distinct recorded steps (replanner never
returning an empty-string response). -/
theorem pDrive_nodup (env : PEnv)
    (hresp : ∀ s r, env.replanO s = .ok (.respOut r) → r ≠ "") :
    ∀ (b : Nat) (n : PNode) (s : PState), pInv n s →
      ∀ e st, pDrive env b n s = .ok (e, st) → (pastStepList st).Nodup := by
  intro b
  induction b with
  | zero =>
    intro n s hinv e st h
    simp only [pDrive] at h
    injection h with h1
    injection h1 with h2 h3
    subst h3
    exact pInv_nodup n s hinv
  | succ b ih =>
    intro n s hinv e st h
    simp only [pDrive] at h
    cases happ : pApplyNode env n s with
    | error f =>
      rw [happ] at h
      exact Except.noConfusion h
    | ok p =>
      obtain ⟨s', n'opt⟩ := p
      have hpres := pApply_preserves env hresp n s hinv s' n'opt happ
      rw [happ] at h
      cases n'opt with
      | none =>
        injection h with h1
        injection h1 with h2 h3
        subst h3
        exact hpres.1
      | some n' =>
        exact ih n' s' (hpres.2 n' rfl) e st h

/-- C2 counterexample: the duplicate filter does not stop every
re-execution — a replanner that returns an empty-string `Response` is
routed back to the execution node with the plan unchanged, so the head
step of the plan runs twice and appears twice in past steps within one
turn. -/
theorem c2_counterexample :
    (pDrive pLoopEnv 25 .get_plan_or_response (pInit "anomalies" [])).map
        (fun p => (pastStepList p.2, p.2.response)) =
      .ok ([PStep.query "q1", PStep.query "q1"], "done") ∧
    ¬ ([PStep.query "q1", PStep.query "q1"] : List PStep).Nodup :=
  ⟨rfl, by decide⟩

/-- C2 amended: every continuation plan adopted by `replan` contains no
step equal to a recorded past step, and under the additional assumption
that the replanner never returns an empty-string response (Python-falsy,
routed back to execution without a fresh plan), no plan step is ever
recorded twice in one turn's past steps. -/
theorem c2_amended (env : PEnv) (input : String) (history : List (String × String))
    (hresp : ∀ s r, env.replanO s = .ok (.respOut r) → r ≠ "") :
    (∀ steps past, ∀ st ∈ replanFilter steps past, some st ∉ past.map Prod.fst) ∧
    (∀ e st, pDrive env 25 .get_plan_or_response (pInit input history) = .ok (e, st) →
      (pastStepList st).Nodup) := by
  refine ⟨fun steps past => replanFilter_not_mem steps past, fun e st h => ?_⟩
  exact pDrive_nodup env hresp 25 .get_plan_or_response (pInit input history) rfl e st h

/-- Witness for C2 amended on the direct-answer environment. -/
theorem c2_amended_witness :
    (pastStepList { input := "hi"
                    plan := []
                    past_steps := []
                    response := "hello"
                    conversation_history := [("hi", "hello")] }).Nodup := by
  have hresp : ∀ s r, pOkEnv.replanO s = .ok (.respOut r) → r ≠ "" := by
    intro s r h
    simp only [pOkEnv, Except.ok.injEq, ActOut.respOut.injEq] at h
    rw [← h]
    decide
  exact (c2_amended pOkEnv "hi" [] hresp).2 (.finished .update_history) _ rfl

/-- Only `update_history` has no successor: a normally completed stream
always ends there. -/
theorem pApply_none_update_history (env : PEnv) (n : PNode) (s s' : PState)
    (h : pApplyNode env n s = .ok (s', none)) : n = .update_history := by
  cases n with
  | get_plan_or_response =>
    revert h
    cases hd : env.decideO with
    | error f => simp [pApplyNode, hd]
    | ok t => cases t <;> simp [pApplyNode, hd]
  | agent =>
    revert h
    cases hp : s.plan <;> simp [pApplyNode, hp]
  | replan =>
    revert h
    cases hr : env.replanO s with
    | error f => simp [pApplyNode, hr]
    | ok a => cases a <;> simp [pApplyNode, hr]
  | update_history => rfl

/-- A finished plan-execute stream always finished at `update_history`. -/
theorem pDrive_finished (env : PEnv) :
    ∀ (b : Nat) (n : PNode) (s : PState) (n2 : PNode) (st : PState),
      pDrive env b n s = .ok (.finished n2, st) → n2 = .update_history := by
  intro b
  induction b with
  | zero =>
    intro n s n2 st h
    simp only [pDrive] at h
    injection h with h1
    injection h1 with h2 h3
    exact PEnd.noConfusion h2
  | succ b ih =>
    intro n s n2 st h
    simp only [pDrive] at h
    cases happ : pApplyNode env n s with
    | error f =>
      rw [happ] at h
      exact Except.noConfusion h
    | ok p =>
      obtain ⟨s', n'opt⟩ := p
      rw [happ] at h
      cases n'opt with
      | none =>
        injection h with h1
        injection h1 with h2 h3
        injection h2 with h4
        rw [← h4]
        exact pApply_none_update_history env n s s' happ
      | some n' => exact ih n' s' n2 st h

/-- C9 counterexample: an infrastructure fault in the planning call
escapes `PlanExecuteAgent.call` as a raised fault — the stream loop is
outside the `try`, so the fixed fallback "Please reformulate." is not
returned. -/
theorem c9_counterexample :
    pCall pFaultEnv "hello" [] = .error (.node (.infra "llm timeout")) := rfl

/-- C9 amended: `QueryAgent.call` converts every stream fault to
"Something went wrong. Please try again." and the recursion ceiling to
"I couldn't access the information", never propagating; but
`PlanExecuteAgent.call` guards only the final extraction: a normally
completed stream always ends at `update_history` and returns its
response (so the "Please reformulate." fallback is unreachable there),
while node faults and the outer recursion ceiling propagate out of
`call` as raised faults. -/
theorem c9_amended (qenv : QEnv) (question : String)
    (penv : PEnv) (input : String) (history : List (String × String)) :
    (∀ f, qDrive qenv 5 .write_query (qInit question) = .error f →
      qCall qenv question = "Something went wrong. Please try again.") ∧
    (∀ s, qDrive qenv 5 .write_query (qInit question) = .ok (.recursionError, s) →
      qCall qenv question = "I couldn't access the information") ∧
    (∀ n s, pDrive penv 25 .get_plan_or_response (pInit input history) =
        .ok (.finished n, s) →
      n = .update_history ∧ pCall penv input history = .ok s.response) ∧
    (∀ f, pDrive penv 25 .get_plan_or_response (pInit input history) = .error f →
      pCall penv input history = .error (.node f)) ∧
    (∀ s, pDrive penv 25 .get_plan_or_response (pInit input history) =
        .ok (.recursionError, s) →
      pCall penv input history = .error .recursion) := by
  refine ⟨?_, ?_, ?_, ?_, ?_⟩
  · intro f h
    unfold qCall
    rw [h]
  · intro s h
    unfold qCall
    rw [h]
  · intro n s h
    have hn := pDrive_finished penv 25 .get_plan_or_response (pInit input history) n s h
    subst hn
    refine ⟨rfl, ?_⟩
    unfold pCall
    rw [h]
    rfl
  · intro f h
    unfold pCall
    rw [h]
  · intro s h
    unfold pCall
    rw [h]

/-- Witness for C9 amended: a query-side fault becomes the fixed
message, and a completed plan-side turn returns its response. -/
theorem c9_amended_witness :
    qCall c4Env "clear the logs" = "Something went wrong. Please try again." ∧
    pCall pOkEnv "hi" [] = .ok "hello" := by
  have h := c9_amended c4Env "clear the logs" pOkEnv "hi" []
  refine ⟨h.1 (.keyError "query") rfl, ?_⟩
  have h3 := h.2.2.1 .update_history
    { input := "hi"
      plan := []
      past_steps := []
      response := "hello"
      conversation_history := [("hi", "hello")] } rfl
  exact h3.2

end UAV
